import Mathlib

/-!
Verification of the campus lost-and-found persistence and matching layer.

Shallow embedding of the data-access functions in `mongoService` (browser
fallback mode modelled as explicit state passing over a `Store`; MongoDB
backend mode modelled as list operations over a `BackendStore`, with backend
failure an explicit `Except` error) and of the auth shim's `register`.

Conventions:
- `createdAt` is a `Nat` timestamp; the source stores ISO-8601 strings in
  fallback mode and `Date` values in backend mode, both of which order
  identically to the timestamp they denote.
- Random id generation (`generateId` / ObjectId) is modelled by passing the
  fresh id as an explicit argument.
- The image file and its base64 encoding are modelled as an optional
  already-encoded string.
-/

namespace CampusFinds

inductive ItemType where
  | lost
  | found
deriving DecidableEq

inductive ItemStatus where
  | searching
  | resolved
deriving DecidableEq

structure Item where
  id : String
  name : String
  category : String
  location : String
  date : String
  description : String
  imageUrl : String
  userId : String
  userName : String
  contactInfo : String
  createdAt : Nat
  type : ItemType
  status : ItemStatus
deriving DecidableEq

structure ItemFormData where
  name : String
  category : String
  location : String
  date : String
  description : String
  image : Option String
  contactInfo : String
deriving DecidableEq

/-- Public user shape returned to callers (no password). -/
structure User where
  id : String
  email : String
  name : String
deriving DecidableEq

/-- User record as stored in fallback mode: `{ ...newUser, password }`. -/
structure StoredUser where
  id : String
  email : String
  name : String
  password : String
deriving DecidableEq

/-- The three localStorage keys of fallback mode (`users`, `lostItems`,
`foundItems`), after `initStorage` has ensured they exist. -/
structure Store where
  users : List StoredUser
  lostItems : List Item
  foundItems : List Item
deriving DecidableEq

/-! Section: Fallback-mode data access layer (`isBrowser` branch of each function) -/

/-- Fallback branch of `createUser`: builds `{id, email, name}`, pushes
`{...newUser, password}` onto the `users` list, returns the public user. -/
def createUser (email password name newId : String) (s : Store) : User × Store :=
  let newUser : User := { id := newId, email := email, name := name }
  (newUser,
    { s with users := s.users ++ [{ id := newId, email := email, name := name, password := password }] })

/-- JavaScript `s.toLowerCase()`, character by character. -/
def lowerStr (s : String) : String :=
  String.mk (s.data.map Char.toLower)

/-- Fallback branch of `findUserByEmail`:
`users.find(u => u.email.toLowerCase() === email.toLowerCase())`, `null` if none. -/
def findUserByEmail (email : String) (users : List StoredUser) : Option StoredUser :=
  users.find? (fun u => lowerStr u.email == lowerStr email)

/-- Fallback branch of `createItem`: builds the new item (status forced to
`searching`, image as base64 payload or `/placeholder.svg`), pushes it onto
the collection selected by `type`, returns it. -/
def createItem (itemData : ItemFormData) (type : ItemType) (userId userName : String)
    (now : Nat) (newId : String) (s : Store) : Item × Store :=
  let imageUrl := match itemData.image with
    | some data => data
    | none => "/placeholder.svg"
  let newItem : Item :=
    { id := newId
      name := itemData.name
      category := itemData.category
      location := itemData.location
      date := itemData.date
      description := itemData.description
      imageUrl := imageUrl
      userId := userId
      userName := userName
      contactInfo := itemData.contactInfo
      createdAt := now
      type := type
      status := ItemStatus.searching }
  if type = ItemType.lost then
    (newItem, { s with lostItems := s.lostItems ++ [newItem] })
  else
    (newItem, { s with foundItems := s.foundItems ++ [newItem] })

/-- Fallback branch of `getLostItems`: the stored list, unchanged and unsorted. -/
def getLostItems (s : Store) : List Item :=
  s.lostItems

/-- Fallback branch of `getFoundItems`: the stored list, unchanged and unsorted. -/
def getFoundItems (s : Store) : List Item :=
  s.foundItems

/-- The shared "probe the lost collection, then the found collection" lookup
pattern of `getItemById` in both modes. -/
def probeById (id : String) (lost found : List Item) : Option Item :=
  match lost.find? (fun it => it.id == id) with
  | some it => some it
  | none => found.find? (fun it => it.id == id)

/-- Fallback branch of `getItemById`: probe lost items first, then found items. -/
def getItemById (id : String) (s : Store) : Option Item :=
  probeById id s.lostItems s.foundItems

/-- Fallback branch of `getUserItems`: the user's lost items in stored order,
followed by the user's found items in stored order (no sorting). -/
def getUserItems (userId : String) (s : Store) : List Item :=
  s.lostItems.filter (fun it => it.userId == userId)
    ++ s.foundItems.filter (fun it => it.userId == userId)

/-- Functional rendering of `findIndex` + in-place status mutation: update the
first item whose id matches, returning the updated item and the updated list,
or `none` when no id matches. -/
def setStatusFirst (itemId : String) (status : ItemStatus) : List Item → Option (Item × List Item)
  | [] => none
  | it :: rest =>
    if it.id = itemId then
      some ({ it with status := status }, { it with status := status } :: rest)
    else
      match setStatusFirst itemId status rest with
      | none => none
      | some (u, rest2) => some (u, it :: rest2)

/-- Fallback branch of `updateItemStatus`: try the lost collection, then the
found collection; no ownership check anywhere. -/
def updateItemStatus (itemId : String) (status : ItemStatus) (s : Store) :
    Option Item × Store :=
  match setStatusFirst itemId status s.lostItems with
  | some (u, lost2) => (some u, { s with lostItems := lost2 })
  | none =>
    match setStatusFirst itemId status s.foundItems with
    | some (u, found2) => (some u, { s with foundItems := found2 })
    | none => (none, s)

/-- Fallback branch of `deleteItem`: find in lost items; delete only when
`item.userId === userId`; if present but not owned, return false; otherwise
repeat on found items; return false when absent everywhere. -/
def deleteItem (itemId userId : String) (s : Store) : Bool × Store :=
  match s.lostItems.find? (fun it => it.id == itemId) with
  | some lostItem =>
    if lostItem.userId = userId then
      (true, { s with lostItems := s.lostItems.filter (fun it => !(it.id == itemId)) })
    else
      (false, s)
  | none =>
    match s.foundItems.find? (fun it => it.id == itemId) with
    | some foundItem =>
      if foundItem.userId = userId then
        (true, { s with foundItems := s.foundItems.filter (fun it => !(it.id == itemId)) })
      else
        (false, s)
    | none => (false, s)

/-! Section: Matching heuristic (fallback branch of `findPotentialMatches`) -/

/-- Leading-match helper on character lists: does `hay` start with `needle`? -/
def charsLeadWith : List Char → List Char → Bool
  | [], _ => true
  | _ :: _, [] => false
  | a :: as, b :: bs => a == b && charsLeadWith as bs

/-- Does `needle` occur contiguously inside `hay`? -/
def charsContain (needle : List Char) : List Char → Bool
  | [] => charsLeadWith needle []
  | a :: rest => charsLeadWith needle (a :: rest) || charsContain needle rest

/-- JavaScript `hay.includes(needle)`: substring containment. -/
def strIncludes (hay needle : String) : Bool :=
  charsContain needle.toList hay.toList

/-- Split a character list at every space: JavaScript `split(' ')`, with the
accumulator holding the current word reversed. -/
def splitAtSpaces (acc : List Char) : List Char → List (List Char)
  | [] => [acc.reverse]
  | c :: rest =>
    if c = ' ' then acc.reverse :: splitAtSpaces [] rest
    else splitAtSpaces (c :: acc) rest

/-- JavaScript `s.toLowerCase().split(' ')`. -/
def wordsOf (s : String) : List String :=
  (splitAtSpaces [] (lowerStr s).data).map String.mk

/-- The fallback filter predicate of `findPotentialMatches`: category equality,
else a >2-char word of the source name occurring inside a word of the
candidate name, else — only when both descriptions are non-empty — such a
word occurring inside the candidate's lowercased description. -/
def matchesItem (item pm : Item) : Bool :=
  if pm.category = item.category then
    true
  else
    let itemWords := wordsOf item.name
    let matchWords := wordsOf pm.name
    if itemWords.any (fun w => decide (w.length > 2) && matchWords.any (fun mw => strIncludes mw w)) then
      true
    else if item.description != "" && pm.description != "" then
      itemWords.any (fun w => decide (w.length > 2) && strIncludes (lowerStr pm.description) w)
    else
      false

/-- Fallback branch of `findPotentialMatches`: resolve the item, filter the
opposite-type collection by `matchesItem`. -/
def findPotentialMatches (itemId : String) (s : Store) : List Item :=
  match getItemById itemId s with
  | none => []
  | some item =>
    let opposite := if item.type = ItemType.lost then s.foundItems else s.lostItems
    opposite.filter (fun pm => matchesItem item pm)

/-! Section: Backend mode (MongoDB branch), with failure as an explicit error -/

/-- The two item collections of the MongoDB database. -/
structure BackendStore where
  lostItems : List Item
  foundItems : List Item
deriving DecidableEq

/-- A backend (connection or query) failure, caught by the source's
`try`/`catch` blocks. -/
inductive BackendErr where
  | failure
deriving DecidableEq

/-- Comparator realising `.sort({ createdAt: -1 })`. -/
def byCreatedAtDesc (a b : Item) : Bool :=
  b.createdAt ≤ a.createdAt

/-- A collection read back in descending `createdAt` order. -/
def sortDesc (l : List Item) : List Item :=
  l.mergeSort byCreatedAtDesc

/-- Backend branch of `getLostItems`: the lost collection sorted by `createdAt`
descending; on backend failure the catch block returns `[]`. -/
def getLostItemsB : Except BackendErr BackendStore → List Item
  | Except.error _ => []
  | Except.ok st => sortDesc st.lostItems

/-- Backend branch of `getFoundItems`: the found collection sorted by `createdAt`
descending; on backend failure the catch block returns `[]`. -/
def getFoundItemsB : Except BackendErr BackendStore → List Item
  | Except.error _ => []
  | Except.ok st => sortDesc st.foundItems

/-- Backend branch of `getUserItems`: the user's lost items sorted descending,
concatenated with the user's found items sorted descending; `[]` on failure. -/
def getUserItemsB (userId : String) : Except BackendErr BackendStore → List Item
  | Except.error _ => []
  | Except.ok st =>
    sortDesc (st.lostItems.filter (fun it => it.userId == userId))
      ++ sortDesc (st.foundItems.filter (fun it => it.userId == userId))

/-- Backend branch of `getItemById`: probe the lost collection, then found. -/
def getItemByIdB (id : String) (st : BackendStore) : Option Item :=
  probeById id st.lostItems st.foundItems

/-- Backend branch of `findPotentialMatches`: resolve the item, then filter the
opposite-type collection by exact category equality only. -/
def findPotentialMatchesB (itemId : String) (st : BackendStore) : List Item :=
  match getItemByIdB itemId st with
  | none => []
  | some item =>
    let opposite := if item.type = ItemType.lost then st.foundItems else st.lostItems
    opposite.filter (fun m => m.category == item.category)

/-! Section: Auth shim (`AuthContext`): `register` -/

inductive AuthErr where
  | emailInUse
deriving DecidableEq

/-- Auth-relevant client state: the fallback user store, the in-memory
`currentUser`, and the persisted `campus_user` session key. -/
structure AuthState where
  users : List StoredUser
  currentUser : Option User
  sessionKey : Option User
deriving DecidableEq

/-- Register function from `AuthContext`: look the email up; throw a conflict error
when a user exists (leaving all state untouched); otherwise create the user,
set `currentUser` and persist the session. -/
def register (email password name newId : String) (a : AuthState) :
    Except AuthErr User × AuthState :=
  match findUserByEmail email a.users with
  | some _ => (Except.error AuthErr.emailInUse, a)
  | none =>
    let stored : StoredUser := { id := newId, email := email, name := name, password := password }
    let pub : User := { id := newId, email := email, name := name }
    (Except.ok pub,
      { users := a.users ++ [stored], currentUser := some pub, sessionKey := some pub })

/-! Section: Store invariants -/

/-- All item ids across both collections are pairwise distinct. -/
def NodupIds (s : Store) : Prop :=
  ((s.lostItems ++ s.foundItems).map Item.id).Nodup

instance : DecidablePred NodupIds := fun s =>
  inferInstanceAs (Decidable ((s.lostItems ++ s.foundItems).map Item.id).Nodup)

/-- Each collection holds only items of its own type. -/
def WellTyped (s : Store) : Prop :=
  (∀ it ∈ s.lostItems, it.type = ItemType.lost) ∧
    (∀ it ∈ s.foundItems, it.type = ItemType.found)

instance : DecidablePred WellTyped := fun s => by
  unfold WellTyped
  infer_instance

/-- Each backend collection holds only items of its own type. -/
def WellTypedB (st : BackendStore) : Prop :=
  (∀ it ∈ st.lostItems, it.type = ItemType.lost) ∧
    (∀ it ∈ st.foundItems, it.type = ItemType.found)

instance : DecidablePred WellTypedB := fun st => by
  unfold WellTypedB
  infer_instance

/-! Section: Concrete data for witnesses and counterexamples -/

/-- Item constructor for concrete test stores. -/
def mkItem (id name category description userId : String) (createdAt : Nat)
    (type : ItemType) : Item :=
  { id := id, name := name, category := category, location := "Main Hall",
    date := "2024-01-01", description := description, imageUrl := "/placeholder.svg",
    userId := userId, userName := "Some User", contactInfo := "contact",
    createdAt := createdAt, type := type, status := ItemStatus.searching }

def exItemA : Item := mkItem "a1" "Blue Backpack" "Bags" "left near library" "u1" 1 ItemType.lost

def exItemB : Item := mkItem "b1" "Water Bottle" "Misc" "found at gym" "u2" 2 ItemType.found

def exStore : Store := { users := [], lostItems := [exItemA], foundItems := [exItemB] }

def exUserAlice : StoredUser :=
  { id := "ua", email := "Alice@Example.com", name := "Alice", password := "pw" }

def exAuth : AuthState := { users := [exUserAlice], currentUser := none, sessionKey := none }

def ex3a : Item := mkItem "c1" "Red Phone" "Electronics" "old phone" "u1" 1 ItemType.lost

def ex3b : Item := mkItem "c2" "Green Phone" "Electronics" "new phone" "u1" 2 ItemType.lost

def store3 : Store := { users := [], lostItems := [ex3a, ex3b], foundItems := [] }

def src4 : Item := mkItem "s4" "Blue Backpack" "Bags" "" "u1" 1 ItemType.lost

def cand4 : Item :=
  mkItem "f4" "Red Purse" "Electronics" "found a black backpack near the gym" "u2" 2 ItemType.found

def store4 : Store := { users := [], lostItems := [src4], foundItems := [cand4] }

def st4B : BackendStore := { lostItems := [src4], foundItems := [cand4] }

def exForm : ItemFormData :=
  { name := "Calculus Book", category := "Books", location := "Hall", date := "2024-02-02",
    description := "blue cover", image := none, contactInfo := "x@y.z" }

def cand10 : Item := mkItem "f10" "Black Backpack" "Bags" "near gym" "u3" 3 ItemType.found

def store10 : Store := { users := [], lostItems := [src4], foundItems := [cand10] }

def st10B : BackendStore := { lostItems := [src4], foundItems := [cand10] }

/-! Section: Helper lemmas -/

theorem id_unique_of_nodup {s : Store} (h : NodupIds s) {a b : Item}
    (ha : a ∈ s.lostItems ++ s.foundItems) (hb : b ∈ s.lostItems ++ s.foundItems)
    (hid : a.id = b.id) : a = b :=
  List.inj_on_of_nodup_map h ha hb hid

theorem id_disjoint_of_nodup {s : Store} (h : NodupIds s) {a b : Item}
    (ha : a ∈ s.lostItems) (hb : b ∈ s.foundItems) : a.id ≠ b.id := by
  have h' : ((s.lostItems.map Item.id) ++ (s.foundItems.map Item.id)).Nodup := by
    simpa [NodupIds, List.map_append] using h
  have hd := (List.nodup_append.mp h').2.2
  intro he
  exact hd (List.mem_map_of_mem _ ha) (he ▸ List.mem_map_of_mem _ hb)

theorem find?_unique {α : Type} {p : α → Bool} {l : List α} {a : α} (hmem : a ∈ l)
    (hpa : p a = true) (huniq : ∀ b ∈ l, p b = true → b = a) :
    l.find? p = some a := by
  cases hf : l.find? p with
  | none => exact absurd hpa (List.find?_eq_none.mp hf a hmem)
  | some b =>
    have hb := List.find?_some hf
    have hbmem := List.mem_of_find?_eq_some hf
    rw [huniq b hbmem hb]

theorem setStatusFirst_eq_none {itemId : String} {status : ItemStatus} :
    ∀ {l : List Item}, setStatusFirst itemId status l = none ↔ ∀ x ∈ l, x.id ≠ itemId := by
  intro l
  induction l with
  | nil => simp [setStatusFirst]
  | cons it rest ih =>
    by_cases hid : it.id = itemId
    · simp [setStatusFirst, hid]
    · constructor
      · intro h
        simp only [setStatusFirst, if_neg hid] at h
        cases hrec : setStatusFirst itemId status rest with
        | none =>
          intro x hx
          rcases List.mem_cons.mp hx with h1 | h2
          · exact h1 ▸ hid
          · exact (ih.mp hrec) x h2
        | some p => rw [hrec] at h; cases h
      · intro h
        simp only [setStatusFirst, if_neg hid]
        rw [ih.mpr fun x hx => h x (List.mem_cons_of_mem _ hx)]

theorem setStatusFirst_eq_some {itemId : String} {status : ItemStatus} :
    ∀ {l : List Item} {u : Item} {l2 : List Item},
      setStatusFirst itemId status l = some (u, l2) →
      ∃ l₁ it l₂, l = l₁ ++ it :: l₂ ∧ (∀ x ∈ l₁, x.id ≠ itemId) ∧ it.id = itemId ∧
        u = { it with status := status } ∧ l2 = l₁ ++ u :: l₂ := by
  intro l
  induction l with
  | nil => intro u l2 h; cases h
  | cons it rest ih =>
    intro u l2 h
    by_cases hid : it.id = itemId
    · simp only [setStatusFirst, if_pos hid] at h
      obtain ⟨hu, hl2⟩ := Prod.mk.injEq .. ▸ (Option.some.injEq _ _ ▸ h)
      exact ⟨[], it, rest, by simp, by simp, hid, hu.symm, by simp [hl2.symm, hu]⟩
    · simp only [setStatusFirst, if_neg hid] at h
      cases hrec : setStatusFirst itemId status rest with
      | none => rw [hrec] at h; cases h
      | some p =>
        rw [hrec] at h
        obtain ⟨u', rest2⟩ := p
        obtain ⟨hu, hl2⟩ := Prod.mk.injEq .. ▸ (Option.some.injEq _ _ ▸ h)
        obtain ⟨l₁, mid, l₂, heq, hnone, hmid, hu', hrest2⟩ := ih hrec
        refine ⟨it :: l₁, mid, l₂, by simp [heq], ?_, hmid, by rw [← hu, hu'], ?_⟩
        · intro x hx
          rcases List.mem_cons.mp hx with h1 | h2
          · exact h1 ▸ hid
          · exact hnone x h2
        · simp [← hl2, hrest2, hu]

theorem sortDesc_perm (l : List Item) : (sortDesc l).Perm l :=
  List.mergeSort_perm l byCreatedAtDesc

theorem sortDesc_sorted (l : List Item) :
    (sortDesc l).Pairwise (fun x y => y.createdAt ≤ x.createdAt) := by
  have h := @List.sorted_mergeSort Item byCreatedAtDesc
    (fun a b c hab hbc => by
      simp only [byCreatedAtDesc, decide_eq_true_eq] at *
      omega)
    (fun a b => by
      simp only [byCreatedAtDesc, Bool.or_eq_true, decide_eq_true_eq]
      omega) l
  exact h.imp (fun hab => by simpa [byCreatedAtDesc] using hab)

theorem matchesItem_iff (item pm : Item) :
    matchesItem item pm = true ↔
      (pm.category = item.category ∨
        (∃ w ∈ wordsOf item.name, 2 < w.length ∧
          ∃ mw ∈ wordsOf pm.name, strIncludes mw w = true) ∨
        (item.description ≠ "" ∧ pm.description ≠ "" ∧
          ∃ w ∈ wordsOf item.name, 2 < w.length ∧
            strIncludes (lowerStr pm.description) w = true)) := by
  have hAiff : ((wordsOf item.name).any
      (fun w => decide (2 < w.length) && (wordsOf pm.name).any (fun mw => strIncludes mw w))) = true ↔
      (∃ w ∈ wordsOf item.name, 2 < w.length ∧
        ∃ mw ∈ wordsOf pm.name, strIncludes mw w = true) := by
    simp [List.any_eq_true]
  have hCiff : ((wordsOf item.name).any
      (fun w => decide (2 < w.length) && strIncludes (lowerStr pm.description) w)) = true ↔
      (∃ w ∈ wordsOf item.name, 2 < w.length ∧
        strIncludes (lowerStr pm.description) w = true) := by
    simp [List.any_eq_true]
  unfold matchesItem
  by_cases hc : pm.category = item.category
  · simp [hc]
  · rw [if_neg hc]
    by_cases hA : ((wordsOf item.name).any
        (fun w => decide (2 < w.length) && (wordsOf pm.name).any (fun mw => strIncludes mw w))) = true
    · rw [if_pos hA]
      exact iff_of_true rfl (Or.inr (Or.inl (hAiff.mp hA)))
    · rw [if_neg hA]
      by_cases hB : (item.description != "" && pm.description != "") = true
      · rw [if_pos hB]
        simp only [Bool.and_eq_true, bne_iff_ne, ne_eq] at hB
        rw [hCiff]
        constructor
        · intro h
          exact Or.inr (Or.inr ⟨hB.1, hB.2, h⟩)
        · rintro (h | h | h)
          · exact absurd h hc
          · exact absurd (hAiff.mpr h) hA
          · exact h.2.2
      · rw [if_neg hB]
        refine iff_of_false (by decide) ?_
        rintro (h | h | h)
        · exact hc h
        · exact hA (hAiff.mpr h)
        · exact hB (by simp [bne_iff_ne, h.1, h.2.1])

theorem probeById_mem {id : String} {lost found : List Item} {item : Item}
    (h : probeById id lost found = some item) : item ∈ lost ∨ item ∈ found := by
  unfold probeById at h
  cases hfl : lost.find? (fun it => it.id == id) with
  | some j =>
    rw [hfl] at h
    simp only [Option.some.injEq] at h
    exact Or.inl (h ▸ List.mem_of_find?_eq_some hfl)
  | none =>
    rw [hfl] at h
    exact Or.inr (List.mem_of_find?_eq_some h)

theorem opposite_filter_sound {lost found : List Item} {item : Item} (p : Item → Bool)
    (hlost : ∀ it ∈ lost, it.type = ItemType.lost)
    (hfound : ∀ it ∈ found, it.type = ItemType.found)
    (hmem : item ∈ lost ∨ item ∈ found) :
    ∀ m ∈ (if item.type = ItemType.lost then found else lost).filter p,
      m ∈ (if item.type = ItemType.lost then found else lost) ∧ m ≠ item := by
  intro m hm
  have hm' := (List.mem_filter.mp hm).1
  refine ⟨hm', ?_⟩
  rcases hmem with h | h
  · have hty := hlost _ h
    rw [if_pos hty] at hm'
    intro he
    have h2 := hfound _ (he ▸ hm')
    rw [hty] at h2
    cases h2
  · have hty := hfound _ h
    have hty' : ¬ (item.type = ItemType.lost) := by rw [hty]; intro h2; cases h2
    rw [if_neg hty'] at hm'
    intro he
    have h2 := hlost _ (he ▸ hm')
    rw [hty] at h2
    cases h2

/-! Section: Claim theorems -/

/-- C1: for every stored item, `deleteItem` with the owner's id returns true and
the item is gone from `getItemById`; with any other user id it returns false,
leaves the store unchanged, and the item is still returned by `getItemById`. -/
theorem deleteItem_ownership (s : Store) (item : Item)
    (hnd : NodupIds s) (hmem : item ∈ s.lostItems ++ s.foundItems) :
    (deleteItem item.id item.userId s).1 = true ∧
    getItemById item.id (deleteItem item.id item.userId s).2 = none ∧
    ∀ u, u ≠ item.userId →
      (deleteItem item.id u s).1 = false ∧
      (deleteItem item.id u s).2 = s ∧
      getItemById item.id (deleteItem item.id u s).2 = some item := by
  rcases List.mem_append.mp hmem with hl | hf
  · have hfind : s.lostItems.find? (fun it => it.id == item.id) = some item := by
      apply find?_unique hl (by simp)
      intro b hb hpb
      exact id_unique_of_nodup hnd (List.mem_append_left _ hb) hmem (by simpa using hpb)
    have hfound_none : s.foundItems.find? (fun it => it.id == item.id) = none := by
      rw [List.find?_eq_none]
      intro x hx
      simp only [beq_iff_eq]
      exact fun he => id_disjoint_of_nodup hnd hl hx he.symm
    refine ⟨?_, ?_, ?_⟩
    · simp [deleteItem, hfind]
    · have hdel : deleteItem item.id item.userId s =
          (true, { s with lostItems := s.lostItems.filter (fun it => !(it.id == item.id)) }) := by
        simp [deleteItem, hfind]
      rw [hdel]
      simp only [getItemById, probeById, probeById]
      have h1 : (s.lostItems.filter (fun it => !(it.id == item.id))).find?
          (fun it => it.id == item.id) = none := by
        rw [List.find?_eq_none]
        intro x hx
        have h2 := (List.mem_filter.mp hx).2
        simp only [Bool.not_eq_eq_eq_not, Bool.not_true] at h2
        simp [h2]
      rw [h1, hfound_none]
    · intro u hu
      have hneq : ¬ (item.userId = u) := fun h => hu h.symm
      have hdel : deleteItem item.id u s = (false, s) := by
        simp [deleteItem, hfind, hneq]
      refine ⟨by rw [hdel], by rw [hdel], ?_⟩
      rw [hdel]
      simp [getItemById, probeById, hfind]
  · have hlost_none : s.lostItems.find? (fun it => it.id == item.id) = none := by
      rw [List.find?_eq_none]
      intro x hx
      simp only [beq_iff_eq]
      exact fun he => id_disjoint_of_nodup hnd hx hf he
    have hfind : s.foundItems.find? (fun it => it.id == item.id) = some item := by
      apply find?_unique hf (by simp)
      intro b hb hpb
      exact id_unique_of_nodup hnd (List.mem_append_right _ hb) hmem (by simpa using hpb)
    refine ⟨?_, ?_, ?_⟩
    · simp [deleteItem, hlost_none, hfind]
    · have hdel : deleteItem item.id item.userId s =
          (true, { s with foundItems := s.foundItems.filter (fun it => !(it.id == item.id)) }) := by
        simp [deleteItem, hlost_none, hfind]
      rw [hdel]
      simp only [getItemById, probeById, probeById]
      have h1 : (s.foundItems.filter (fun it => !(it.id == item.id))).find?
          (fun it => it.id == item.id) = none := by
        rw [List.find?_eq_none]
        intro x hx
        have h2 := (List.mem_filter.mp hx).2
        simp only [Bool.not_eq_eq_eq_not, Bool.not_true] at h2
        simp [h2]
      rw [hlost_none, h1]
    · intro u hu
      have hneq : ¬ (item.userId = u) := fun h => hu h.symm
      have hdel : deleteItem item.id u s = (false, s) := by
        simp [deleteItem, hlost_none, hfind, hneq]
      refine ⟨by rw [hdel], by rw [hdel], ?_⟩
      rw [hdel]
      simp [getItemById, probeById, hlost_none, hfind]

/-- C1 witness: on a concrete two-item store, the owner's delete succeeds and
removes the item, a non-owner's delete fails and leaves it retrievable. -/
theorem deleteItem_ownership_wit :
    (deleteItem "a1" "u1" exStore).1 = true ∧
    getItemById "a1" (deleteItem "a1" "u1" exStore).2 = none ∧
    (deleteItem "a1" "u9" exStore).1 = false ∧
    getItemById "a1" (deleteItem "a1" "u9" exStore).2 = some exItemA := by
  have h := deleteItem_ownership exStore exItemA (by decide) (by decide)
  have hid : exItemA.id = "a1" := by decide
  have huid : exItemA.userId = "u1" := by decide
  have h3 := h.2.2 "u9" (by decide)
  rw [hid, huid] at h
  rw [hid] at h3
  exact ⟨h.1, h.2.1, h3.1, h3.2.2⟩

/-- C2: `updateItemStatus` updates the matching item and returns it with the
new status, with no ownership precondition; when no collection holds the id it
returns `none` and leaves the store unchanged. -/
theorem updateItemStatus_no_ownership (s : Store) (itemId : String) (status : ItemStatus)
    (hnd : NodupIds s) :
    (∀ item ∈ s.lostItems ++ s.foundItems, item.id = itemId →
      (updateItemStatus itemId status s).1 = some { item with status := status } ∧
      getItemById itemId (updateItemStatus itemId status s).2 =
        some { item with status := status }) ∧
    ((∀ item ∈ s.lostItems ++ s.foundItems, item.id ≠ itemId) →
      (updateItemStatus itemId status s).1 = none ∧
      (updateItemStatus itemId status s).2 = s) := by
  constructor
  · intro item hmem hid
    rcases List.mem_append.mp hmem with hl | hf
    · cases hm : setStatusFirst itemId status s.lostItems with
      | none => exact absurd hid (setStatusFirst_eq_none.mp hm item hl)
      | some p =>
        obtain ⟨u, lost2⟩ := p
        obtain ⟨l₁, it, l₂, heq, hl₁, hit, hu, hl2⟩ := setStatusFirst_eq_some hm
        have hit_mem : it ∈ s.lostItems := heq ▸ List.mem_append_right l₁ (List.mem_cons_self it l₂)
        have hit_eq : it = item :=
          id_unique_of_nodup hnd (List.mem_append_left _ hit_mem) hmem (by rw [hit, hid])
        subst hit_eq
        have hupd : updateItemStatus itemId status s = (some u, { s with lostItems := lost2 }) := by
          simp [updateItemStatus, hm]
        rw [hupd, hu]
        refine ⟨rfl, ?_⟩
        simp only [getItemById, probeById, hl2, hu]
        rw [List.find?_append]
        have h1 : l₁.find? (fun x => x.id == itemId) = none := by
          rw [List.find?_eq_none]
          intro x hx
          simpa using hl₁ x hx
        rw [h1]
        simp [hit]
    · have hmlost : setStatusFirst itemId status s.lostItems = none := by
        rw [setStatusFirst_eq_none]
        intro x hx he
        exact id_disjoint_of_nodup hnd hx hf (by rw [he, ← hid])
      cases hm : setStatusFirst itemId status s.foundItems with
      | none => exact absurd hid (setStatusFirst_eq_none.mp hm item hf)
      | some p =>
        obtain ⟨u, found2⟩ := p
        obtain ⟨l₁, it, l₂, heq, hl₁, hit, hu, hl2⟩ := setStatusFirst_eq_some hm
        have hit_mem : it ∈ s.foundItems := heq ▸ List.mem_append_right l₁ (List.mem_cons_self it l₂)
        have hit_eq : it = item :=
          id_unique_of_nodup hnd (List.mem_append_right _ hit_mem) hmem (by rw [hit, hid])
        subst hit_eq
        have hupd : updateItemStatus itemId status s =
            (some u, { s with foundItems := found2 }) := by
          simp [updateItemStatus, hmlost, hm]
        rw [hupd, hu]
        refine ⟨rfl, ?_⟩
        simp only [getItemById, probeById, probeById]
        have h0 : s.lostItems.find? (fun x => x.id == itemId) = none := by
          rw [List.find?_eq_none]
          intro x hx
          simp only [beq_iff_eq]
          exact fun he => id_disjoint_of_nodup hnd hx hf (by rw [he, ← hid])
        rw [h0]
        simp only [hl2, hu]
        rw [List.find?_append]
        have h1 : l₁.find? (fun x => x.id == itemId) = none := by
          rw [List.find?_eq_none]
          intro x hx
          simpa using hl₁ x hx
        rw [h1]
        simp [hit]
  · intro habs
    have h1 : setStatusFirst itemId status s.lostItems = none := by
      rw [setStatusFirst_eq_none]
      exact fun x hx => habs x (List.mem_append_left _ hx)
    have h2 : setStatusFirst itemId status s.foundItems = none := by
      rw [setStatusFirst_eq_none]
      exact fun x hx => habs x (List.mem_append_right _ hx)
    simp [updateItemStatus, h1, h2]

/-- C2 witness: updating the status of the concrete found item "b1" succeeds
for a caller other than its owner, returning and storing the updated item. -/
theorem updateItemStatus_no_ownership_wit :
    (updateItemStatus "b1" ItemStatus.resolved exStore).1 =
      some { exItemB with status := ItemStatus.resolved } ∧
    getItemById "b1" (updateItemStatus "b1" ItemStatus.resolved exStore).2 =
      some { exItemB with status := ItemStatus.resolved } :=
  (updateItemStatus_no_ownership exStore "b1" ItemStatus.resolved (by decide)).1
    exItemB (by decide) (by decide)

/-- C9: `updateItemStatus` changes only the matched item's status field: users
and the opposite collection are untouched, and the containing collection keeps
every other item in place, the matched item replaced by a copy differing only
in `status`. -/
theorem updateItemStatus_frame (s : Store) (itemId : String) (status : ItemStatus) (item : Item)
    (hnd : NodupIds s) (hid : item.id = itemId) :
    (updateItemStatus itemId status s).2.users = s.users ∧
    (item ∈ s.lostItems →
      (updateItemStatus itemId status s).2.foundItems = s.foundItems ∧
      ∃ l₁ l₂, s.lostItems = l₁ ++ item :: l₂ ∧ (∀ x ∈ l₁, x.id ≠ itemId) ∧
        (updateItemStatus itemId status s).2.lostItems =
          l₁ ++ { item with status := status } :: l₂) ∧
    (item ∈ s.foundItems →
      (updateItemStatus itemId status s).2.lostItems = s.lostItems ∧
      ∃ l₁ l₂, s.foundItems = l₁ ++ item :: l₂ ∧ (∀ x ∈ l₁, x.id ≠ itemId) ∧
        (updateItemStatus itemId status s).2.foundItems =
          l₁ ++ { item with status := status } :: l₂) := by
  refine ⟨?_, ?_, ?_⟩
  · cases hm : setStatusFirst itemId status s.lostItems with
    | some p => obtain ⟨u, l2⟩ := p; simp [updateItemStatus, hm]
    | none =>
      cases hm2 : setStatusFirst itemId status s.foundItems with
      | some p => obtain ⟨u, l2⟩ := p; simp [updateItemStatus, hm, hm2]
      | none => simp [updateItemStatus, hm, hm2]
  · intro hl
    cases hm : setStatusFirst itemId status s.lostItems with
    | none => exact absurd hid (setStatusFirst_eq_none.mp hm item hl)
    | some p =>
      obtain ⟨u, lost2⟩ := p
      obtain ⟨l₁, it, l₂, heq, hl₁, hit, hu, hl2⟩ := setStatusFirst_eq_some hm
      have hit_mem : it ∈ s.lostItems := heq ▸ List.mem_append_right l₁ (List.mem_cons_self it l₂)
      have hit_eq : it = item :=
        id_unique_of_nodup hnd (List.mem_append_left _ hit_mem) (List.mem_append_left _ hl)
          (by rw [hit, hid])
      subst hit_eq
      have hupd : updateItemStatus itemId status s = (some u, { s with lostItems := lost2 }) := by
        simp [updateItemStatus, hm]
      rw [hupd]
      exact ⟨rfl, l₁, l₂, heq, hl₁, by rw [hl2, hu]⟩
  · intro hf
    have hmlost : setStatusFirst itemId status s.lostItems = none := by
      rw [setStatusFirst_eq_none]
      intro x hx he
      exact id_disjoint_of_nodup hnd hx hf (by rw [he, ← hid])
    cases hm : setStatusFirst itemId status s.foundItems with
    | none => exact absurd hid (setStatusFirst_eq_none.mp hm item hf)
    | some p =>
      obtain ⟨u, found2⟩ := p
      obtain ⟨l₁, it, l₂, heq, hl₁, hit, hu, hl2⟩ := setStatusFirst_eq_some hm
      have hit_mem : it ∈ s.foundItems := heq ▸ List.mem_append_right l₁ (List.mem_cons_self it l₂)
      have hit_eq : it = item :=
        id_unique_of_nodup hnd (List.mem_append_right _ hit_mem) (List.mem_append_right _ hf)
          (by rw [hit, hid])
      subst hit_eq
      have hupd : updateItemStatus itemId status s =
          (some u, { s with foundItems := found2 }) := by
        simp [updateItemStatus, hmlost, hm]
      rw [hupd]
      exact ⟨rfl, l₁, l₂, heq, hl₁, by rw [hl2, hu]⟩

/-- C9 witness: updating the concrete lost item "a1" leaves users and the
found collection untouched and only rewrites that item's status. -/
theorem updateItemStatus_frame_wit :
    (updateItemStatus "a1" ItemStatus.resolved exStore).2.users = exStore.users ∧
    (updateItemStatus "a1" ItemStatus.resolved exStore).2.foundItems = exStore.foundItems ∧
    ∃ l₁ l₂, exStore.lostItems = l₁ ++ exItemA :: l₂ ∧ (∀ x ∈ l₁, x.id ≠ "a1") ∧
      (updateItemStatus "a1" ItemStatus.resolved exStore).2.lostItems =
        l₁ ++ { exItemA with status := ItemStatus.resolved } :: l₂ := by
  have h := updateItemStatus_frame exStore "a1" ItemStatus.resolved exItemA (by decide) (by decide)
  exact ⟨h.1, (h.2.1 (by decide)).1, (h.2.1 (by decide)).2⟩

/-- C3 counterexample: in fallback mode `getUserItems` keeps stored insertion
order. On a store whose two lost items (both owned by "u1") were created in
ascending `createdAt` order, the returned segment is not in descending order,
contradicting the claimed descending-createdAt ordering. -/
theorem getUserItems_order_cx :
    getUserItems "u1" store3 = [ex3a, ex3b] ∧
    store3.foundItems = [] ∧
    (∀ it ∈ store3.lostItems, it.userId = "u1") ∧
    ex3a.createdAt < ex3b.createdAt ∧
    ¬ (getUserItems "u1" store3).Pairwise (fun x y => y.createdAt ≤ x.createdAt) := by
  decide

/-- C3 amended: `getUserItems` returns the user's lost items immediately
followed by the user's found items, never a globally re-sorted merge; in
backend mode each segment is a permutation of the user's items in that
collection sorted by `createdAt` descending, while in fallback mode each
segment keeps stored insertion order. -/
theorem getUserItems_concatenation (userId : String) (s : Store) (st : BackendStore) :
    getUserItems userId s =
      s.lostItems.filter (fun it => it.userId == userId) ++
        s.foundItems.filter (fun it => it.userId == userId) ∧
    getUserItemsB userId (Except.ok st) =
      sortDesc (st.lostItems.filter (fun it => it.userId == userId)) ++
        sortDesc (st.foundItems.filter (fun it => it.userId == userId)) ∧
    (sortDesc (st.lostItems.filter (fun it => it.userId == userId))).Perm
      (st.lostItems.filter (fun it => it.userId == userId)) ∧
    (sortDesc (st.lostItems.filter (fun it => it.userId == userId))).Pairwise
      (fun x y => y.createdAt ≤ x.createdAt) ∧
    (sortDesc (st.foundItems.filter (fun it => it.userId == userId))).Perm
      (st.foundItems.filter (fun it => it.userId == userId)) ∧
    (sortDesc (st.foundItems.filter (fun it => it.userId == userId))).Pairwise
      (fun x y => y.createdAt ≤ x.createdAt) :=
  ⟨rfl, rfl, sortDesc_perm _, sortDesc_sorted _, sortDesc_perm _, sortDesc_sorted _⟩

/-- C4 counterexample: the fallback description check is gated on the source
item's own description being non-empty. With a lost source item whose
description is empty and a found candidate of a different category whose
description contains the qualifying word "backpack" from the source's name,
the claim's criterion holds, yet the candidate is not returned. -/
theorem findPotentialMatches_description_gate_cx :
    getItemById "s4" store4 = some src4 ∧
    cand4 ∈ store4.foundItems ∧
    src4.type = ItemType.lost ∧
    cand4.category ≠ src4.category ∧
    (∃ w ∈ wordsOf src4.name, 2 < w.length ∧
      strIncludes (lowerStr cand4.description) w = true) ∧
    findPotentialMatches "s4" store4 = [] := by
  decide

/-- C4 amended: in fallback mode a candidate from the opposite-type collection
is returned by `findPotentialMatches` iff its category equals the source's,
or a lowercase word of the source's name longer than 2 characters occurs
inside a lowercase word of the candidate's name, or — provided both the
source's and the candidate's descriptions are non-empty — such a word occurs
inside the candidate's lowercased description. -/
theorem findPotentialMatches_criterion (s : Store) (itemId : String) (item cand : Item)
    (hres : getItemById itemId s = some item)
    (hcand : cand ∈ (if item.type = ItemType.lost then s.foundItems else s.lostItems)) :
    cand ∈ findPotentialMatches itemId s ↔
      (cand.category = item.category ∨
        (∃ w ∈ wordsOf item.name, 2 < w.length ∧
          ∃ mw ∈ wordsOf cand.name, strIncludes mw w = true) ∨
        (item.description ≠ "" ∧ cand.description ≠ "" ∧
          ∃ w ∈ wordsOf item.name, 2 < w.length ∧
            strIncludes (lowerStr cand.description) w = true)) := by
  have hfp : findPotentialMatches itemId s =
      (if item.type = ItemType.lost then s.foundItems else s.lostItems).filter
        (fun pm => matchesItem item pm) := by
    unfold findPotentialMatches
    rw [hres]
  rw [hfp, List.mem_filter]
  rw [matchesItem_iff]
  simp [hcand]

/-- C4 witness: on a concrete store whose found candidate shares the source's
category, the criterion equivalence holds. -/
theorem findPotentialMatches_criterion_wit :
    cand10 ∈ findPotentialMatches "s4" store10 ↔
      (cand10.category = src4.category ∨
        (∃ w ∈ wordsOf src4.name, 2 < w.length ∧
          ∃ mw ∈ wordsOf cand10.name, strIncludes mw w = true) ∨
        (src4.description ≠ "" ∧ cand10.description ≠ "" ∧
          ∃ w ∈ wordsOf src4.name, 2 < w.length ∧
            strIncludes (lowerStr cand10.description) w = true)) :=
  findPotentialMatches_criterion store10 "s4" src4 cand10 (by decide) (by decide)

/-- C5: `createItem` with type `lost` yields an item with status `searching`
and the supplied fresh identifier; the item is in `getLostItems` of the new
store and not in `getFoundItems`. -/
theorem createItem_lost_membership (itemData : ItemFormData) (userId userName : String)
    (now : Nat) (newId : String) (s : Store) (hwt : WellTyped s) :
    (createItem itemData ItemType.lost userId userName now newId s).1.status =
      ItemStatus.searching ∧
    (createItem itemData ItemType.lost userId userName now newId s).1.id = newId ∧
    (createItem itemData ItemType.lost userId userName now newId s).1 ∈
      getLostItems (createItem itemData ItemType.lost userId userName now newId s).2 ∧
    (createItem itemData ItemType.lost userId userName now newId s).1 ∉
      getFoundItems (createItem itemData ItemType.lost userId userName now newId s).2 := by
  refine ⟨rfl, rfl, ?_, ?_⟩
  · simp [createItem, getLostItems]
  · have hfe : (createItem itemData ItemType.lost userId userName now newId s).2.foundItems
        = s.foundItems := rfl
    have hty : (createItem itemData ItemType.lost userId userName now newId s).1.type
        = ItemType.lost := rfl
    show ¬ _ ∈ getFoundItems _
    rw [getFoundItems, hfe]
    intro hmem
    have h2 := hwt.2 _ hmem
    rw [hty] at h2
    cases h2

/-- C5 witness: creating a concrete lost item on the concrete store. -/
theorem createItem_lost_membership_wit :
    (createItem exForm ItemType.lost "u1" "User One" 5 "n1" exStore).1.status =
      ItemStatus.searching ∧
    (createItem exForm ItemType.lost "u1" "User One" 5 "n1" exStore).1.id = "n1" ∧
    (createItem exForm ItemType.lost "u1" "User One" 5 "n1" exStore).1 ∈
      getLostItems (createItem exForm ItemType.lost "u1" "User One" 5 "n1" exStore).2 ∧
    (createItem exForm ItemType.lost "u1" "User One" 5 "n1" exStore).1 ∉
      getFoundItems (createItem exForm ItemType.lost "u1" "User One" 5 "n1" exStore).2 :=
  createItem_lost_membership exForm "u1" "User One" 5 "n1" exStore (by decide)

/-- C6 counterexample: in fallback mode `getLostItems` returns the stored list
unsorted; on a store whose lost items sit in ascending `createdAt` order the
result is not sorted descending, contradicting the claimed ordering. -/
theorem getLostItems_unsorted_cx :
    getLostItems store3 = store3.lostItems ∧
    ¬ (getLostItems store3).Pairwise (fun x y => y.createdAt ≤ x.createdAt) := by
  decide

/-- C6 amended: in backend mode `getLostItems`/`getFoundItems` return a
permutation of the respective collection sorted by `createdAt` descending and
return `[]` when the backend operation fails instead of raising; in fallback
mode they return the stored collection unchanged (insertion order). -/
theorem getItems_sorted_or_empty (st : BackendStore) (e : BackendErr) (s : Store) :
    (getLostItemsB (Except.ok st)).Perm st.lostItems ∧
    (getLostItemsB (Except.ok st)).Pairwise (fun x y => y.createdAt ≤ x.createdAt) ∧
    getLostItemsB (Except.error e) = [] ∧
    (getFoundItemsB (Except.ok st)).Perm st.foundItems ∧
    (getFoundItemsB (Except.ok st)).Pairwise (fun x y => y.createdAt ≤ x.createdAt) ∧
    getFoundItemsB (Except.error e) = [] ∧
    getLostItems s = s.lostItems ∧
    getFoundItems s = s.foundItems :=
  ⟨sortDesc_perm _, sortDesc_sorted _, rfl, sortDesc_perm _, sortDesc_sorted _, rfl, rfl, rfl⟩

/-- C7: `register` on an email that is already registered (up to letter case,
as fallback lookup compares) fails with the conflict error and leaves the
whole auth state — in particular the existing user record — unchanged. -/
theorem register_conflict (email password name newId : String) (a : AuthState)
    (h : ∃ u ∈ a.users, lowerStr u.email = lowerStr email) :
    (register email password name newId a).1 = Except.error AuthErr.emailInUse ∧
    (register email password name newId a).2 = a := by
  obtain ⟨u, hu, he⟩ := h
  cases hf : findUserByEmail email a.users with
  | none =>
    rw [findUserByEmail, List.find?_eq_none] at hf
    exact absurd (by simpa using he) (hf u hu)
  | some v =>
    constructor <;> simp [register, hf]

/-- C7 witness: registering the already-used email (in different case) on the
concrete auth state fails with the conflict error and changes nothing. -/
theorem register_conflict_wit :
    (register "alice@EXAMPLE.com" "pw2" "Alice2" "id2" exAuth).1 =
      Except.error AuthErr.emailInUse ∧
    (register "alice@EXAMPLE.com" "pw2" "Alice2" "id2" exAuth).2 = exAuth :=
  register_conflict "alice@EXAMPLE.com" "pw2" "Alice2" "id2" exAuth
    ⟨exUserAlice, by decide, by decide⟩

/-- C8: fallback `findUserByEmail` compares emails case-insensitively: a query
equal to a stored user's email up to case returns that user's full stored
record (password field included); when no stored email matches up to case it
returns `none`. -/
theorem findUserByEmail_ci (email : String) (users : List StoredUser)
    (hnd : (users.map (fun u => lowerStr u.email)).Nodup) :
    (∀ u ∈ users, lowerStr u.email = lowerStr email →
      findUserByEmail email users = some u) ∧
    ((∀ u ∈ users, lowerStr u.email ≠ lowerStr email) →
      findUserByEmail email users = none) := by
  constructor
  · intro u hu he
    apply find?_unique hu (by simpa using he)
    intro b hb hpb
    have hb' : lowerStr b.email = lowerStr email := by simpa using hpb
    exact List.inj_on_of_nodup_map hnd hb hu (by rw [hb', he])
  · intro h
    rw [findUserByEmail, List.find?_eq_none]
    intro x hx
    simpa using h x hx

/-- C8 witness: the stored "Alice@Example.com" is found by an all-caps query,
and an unknown email yields `none`. -/
theorem findUserByEmail_ci_wit :
    findUserByEmail "ALICE@example.COM" [exUserAlice] = some exUserAlice ∧
    findUserByEmail "bob@example.com" [exUserAlice] = none :=
  ⟨(findUserByEmail_ci "ALICE@example.COM" [exUserAlice] (by decide)).1
      exUserAlice (by decide) (by decide),
    (findUserByEmail_ci "bob@example.com" [exUserAlice] (by decide)).2 (by decide)⟩

/-- C10: every item returned by `findPotentialMatches` comes from the
collection of the opposite type to the resolved source item, and the source
item never appears among its own matches — in both fallback and backend mode. -/
theorem findPotentialMatches_opposite_only (s : Store) (st : BackendStore) (itemId : String)
    (item itemB : Item) (hwt : WellTyped s) (hres : getItemById itemId s = some item)
    (hwtB : WellTypedB st) (hresB : getItemByIdB itemId st = some itemB) :
    (∀ m ∈ findPotentialMatches itemId s,
      m ∈ (if item.type = ItemType.lost then s.foundItems else s.lostItems) ∧ m ≠ item) ∧
    (∀ m ∈ findPotentialMatchesB itemId st,
      m ∈ (if itemB.type = ItemType.lost then st.foundItems else st.lostItems) ∧ m ≠ itemB) := by
  constructor
  · intro m hm
    have hmem := probeById_mem hres
    have hfp : findPotentialMatches itemId s =
        (if item.type = ItemType.lost then s.foundItems else s.lostItems).filter
          (fun pm => matchesItem item pm) := by
      unfold findPotentialMatches
      rw [hres]
    rw [hfp] at hm
    exact opposite_filter_sound _ hwt.1 hwt.2 hmem m hm
  · intro m hm
    have hmem := probeById_mem hresB
    have hfp : findPotentialMatchesB itemId st =
        (if itemB.type = ItemType.lost then st.foundItems else st.lostItems).filter
          (fun x => x.category == itemB.category) := by
      unfold findPotentialMatchesB
      rw [hresB]
    rw [hfp] at hm
    exact opposite_filter_sound _ hwtB.1 hwtB.2 hmem m hm

/-- C10 witness: on a concrete store the category-matching found candidate is
indeed in the found collection and differs from the lost source item, in both
modes. -/
theorem findPotentialMatches_opposite_only_wit :
    (cand10 ∈ (if src4.type = ItemType.lost then store10.foundItems else store10.lostItems) ∧
      cand10 ≠ src4) ∧
    (cand10 ∈ (if src4.type = ItemType.lost then st10B.foundItems else st10B.lostItems) ∧
      cand10 ≠ src4) := by
  have h := findPotentialMatches_opposite_only store10 st10B "s4" src4 src4
    (by decide) (by decide) (by decide) (by decide)
  exact ⟨h.1 cand10 (by decide), h.2 cand10 (by decide)⟩

end CampusFinds
